import Mathlib

/-
Verification of removebg.py, a PNG batch processor that resizes and
center-crops images to a square and turns near-white pixels transparent.

The embedding models the arithmetic core of process_image (lines 19-90)
and the batch loop of main (lines 110-149).  Library primitives (decode,
Lanczos resample, crop pixel extraction, Gaussian blur, PNG encode) are
external collaborators per the specification; the blur is passed in as a
function parameter, and the crop geometry is modelled by the box
arithmetic the code performs.  Machine floats are idealised as rationals;
the Python builtin round (banker s rounding, half to even) is modelled
exactly by pyRound.
-/

/-- Pixel with red, green, blue, alpha channels, each 0..255.  The grid of
pixels is modelled as the flat list that img.getdata() returns. -/
abbrev Pixel : Type := ℕ × ℕ × ℕ × ℕ

/-- Python builtin round: nearest integer, ties to the even integer. -/
def pyRound (q : ℚ) : ℤ :=
  if q - ⌊q⌋ < 1/2 then ⌊q⌋
  else if 1/2 < q - ⌊q⌋ then ⌊q⌋ + 1
  else if ⌊q⌋ % 2 = 0 then ⌊q⌋
  else ⌊q⌋ + 1

/-- Tolerance normalization, removebg.py lines 49-55: parse failure (the
none case) degrades to 0.0; a parsed value above 1.0 is treated as a
legacy 0..255 value, divided by 255 and clamped to the unit interval. -/
def normalizeTolerance : Option ℚ → ℚ
  | none => 0
  | some t => if 1 < t then max 0 (min 1 (t / 255)) else t

/-- Whiteness threshold, removebg.py line 58: threshold = int(round(255 * _tol)). -/
def whiteThreshold (tolerance : Option ℚ) : ℤ :=
  pyRound (255 * normalizeTolerance tolerance)

/-- Mask value of one pixel, removebg.py lines 59-65: 0 when r, g and b
all reach the threshold, else 255. -/
def maskPixel (threshold : ℤ) (p : Pixel) : ℕ :=
  if threshold ≤ (p.1 : ℤ) ∧ threshold ≤ (p.2.1 : ℤ) ∧ threshold ≤ (p.2.2.1 : ℤ) then 0
  else 255

/-- The mask_data list built by the loop of lines 59-65, one entry per pixel. -/
def buildMask (threshold : ℤ) (datas : List Pixel) : List ℕ :=
  datas.map (maskPixel threshold)

/-- Smoothing normalization, removebg.py lines 70-74: parse failure
degrades to 0.0, then the value is clamped to the unit interval. -/
def normalizeSmoothing : Option ℚ → ℚ
  | none => 0
  | some s => max 0 (min 1 s)

/-- Blur radius, removebg.py lines 76-77: radius = s * max_radius with
max_radius = 5.0. -/
def blurRadius (smoothing : Option ℚ) : ℚ :=
  normalizeSmoothing smoothing * 5

/-- Recombination loop, removebg.py lines 82-87: zip the cropped pixel
data with the mask pixels and keep (r, g, b, mask value); the source
alpha channel is dropped. -/
def recombine (datas : List Pixel) (maskPixels : List ℕ) : List Pixel :=
  (datas.zip maskPixels).map (fun pm => (pm.1.1, pm.1.2.1, pm.1.2.2.1, pm.2))

/-- Pixel pipeline of process_image on the cropped pixel data, removebg.py
lines 42-89: build the whiteness mask, blur it when the normalized
smoothing is positive (the Gaussian blur itself is a library primitive,
passed in as the parameter blur), then recombine.  The final
putdata(new_data) of line 89 writes the empty list and changes nothing. -/
def processCore (datas : List Pixel) (tolerance smoothing : Option ℚ)
    (blur : List ℕ → ℚ → List ℕ) : List Pixel :=
  recombine datas
    (if 0 < normalizeSmoothing smoothing
     then blur (buildMask (whiteThreshold tolerance) datas) (blurRadius smoothing)
     else buildMask (whiteThreshold tolerance) datas)

/-- Color part of a pixel; classification and recombination use only this. -/
def rgbOf (p : Pixel) : ℕ × ℕ × ℕ := (p.1, p.2.1, p.2.2.1)

/-- Scale factor, removebg.py line 24: scale = size / float(min(w, h)). -/
def scaleOf (w h size : ℕ) : ℚ := (size : ℚ) / ((min w h : ℕ) : ℚ)

/-- Resized width, removebg.py line 25: new_w = max(1, int(round(w * scale))). -/
def newW (w h size : ℕ) : ℤ := max 1 (pyRound ((w : ℚ) * scaleOf w h size))

/-- Resized height, removebg.py line 26: new_h = max(1, int(round(h * scale))). -/
def newH (w h size : ℕ) : ℤ := max 1 (pyRound ((h : ℚ) * scaleOf w h size))

/-- Crop box left edge, removebg.py line 31.  The Python floor division
by 2 agrees with Euclidean division because the divisor is positive. -/
def cropLeft (w h size : ℕ) : ℤ := max 0 ((newW w h size - size) / 2)

/-- Crop box top edge, removebg.py line 32. -/
def cropTop (w h size : ℕ) : ℤ := max 0 ((newH w h size - size) / 2)

/-- Crop box right edge, removebg.py line 33. -/
def cropRight (w h size : ℕ) : ℤ := cropLeft w h size + size

/-- Crop box bottom edge, removebg.py line 34. -/
def cropBottom (w h size : ℕ) : ℤ := cropTop w h size + size

/-- Dimensions of the image img.crop((left, top, right, bottom)) returns:
the crop box width and height (PIL pads when the box leaves the image). -/
def croppedDims (w h size : ℕ) : ℤ × ℤ :=
  (cropRight w h size - cropLeft w h size, cropBottom w h size - cropTop w h size)

/-- Line printed for one file by the batch loop, removebg.py lines
145-149: the success print inside the try, or the failure print of the
except branch.  The per-file outcome is the Except value. -/
def fileLine (src dest : String) (result : Except String Unit) : String :=
  match result with
  | Except.ok _ => "Processed: " ++ src ++ " -> " ++ dest
  | Except.error e => "Failed to process " ++ src ++ ": " ++ e

/-- Batch loop of main, removebg.py lines 132-149: every file yields
exactly one printed line, success or failure, and the loop never aborts. -/
def runBatch (files : List (String × String × Except String Unit)) : List String :=
  files.map (fun f => fileLine f.1 f.2.1 f.2.2)

/-- Process exit code, removebg.py lines 110-112: sys.exit(1) when the
input directory is missing, otherwise main returns and the process exits 0. -/
def mainExitCode (inputDirExists : Bool) : ℕ :=
  if inputDirExists then 0 else 1

/-- Batch of two valid PNGs and one corrupt file. -/
def exampleBatch : List (String × String × Except String Unit) :=
  [("a.png", "out/a.png", Except.ok ()),
   ("b.png", "out/b.png", Except.ok ()),
   ("c.png", "out/c.png", Except.error "cannot identify image file")]

theorem floor_le_pyRound (q : ℚ) : ⌊q⌋ ≤ pyRound q := by
  unfold pyRound
  split_ifs <;> omega

theorem pyRound_le_floor_add_one (q : ℚ) : pyRound q ≤ ⌊q⌋ + 1 := by
  unfold pyRound
  split_ifs <;> omega

theorem pyRound_intCast (n : ℤ) : pyRound (n : ℚ) = n := by
  unfold pyRound
  rw [Int.floor_intCast]
  norm_num

theorem pyRound_natCast (n : ℕ) : pyRound (n : ℚ) = n := by
  have h := pyRound_intCast (n : ℤ)
  push_cast at h
  exact h

theorem pyRound_le (q : ℚ) : (pyRound q : ℚ) ≤ q + 1/2 := by
  have hfl : (⌊q⌋ : ℚ) ≤ q := Int.floor_le q
  unfold pyRound
  split_ifs <;> push_cast <;> linarith

theorem pyRound_mono {a b : ℚ} (h : a ≤ b) : pyRound a ≤ pyRound b := by
  rcases lt_or_le ⌊a⌋ ⌊b⌋ with hf | hf
  · calc pyRound a ≤ ⌊a⌋ + 1 := pyRound_le_floor_add_one a
      _ ≤ ⌊b⌋ := hf
      _ ≤ pyRound b := floor_le_pyRound b
  · have hfe : ⌊a⌋ = ⌊b⌋ := le_antisymm (Int.floor_le_floor h) hf
    have hfrac : a - (⌊b⌋ : ℚ) ≤ b - (⌊b⌋ : ℚ) := by linarith
    unfold pyRound
    rw [hfe]
    split_ifs <;> first | omega | linarith

theorem pyRound_nonpos {q : ℚ} (h : q ≤ 0) : pyRound q ≤ 0 := by
  by_contra hc
  push_neg at hc
  have h1 : (1 : ℚ) ≤ (pyRound q : ℚ) := by exact_mod_cast hc
  have h2 := pyRound_le q
  linarith

theorem maskPixel_mk (threshold : ℤ) (r g b a : ℕ) :
    maskPixel threshold (r, g, b, a) =
      if threshold ≤ (r : ℤ) ∧ threshold ≤ (g : ℤ) ∧ threshold ≤ (b : ℤ) then 0 else 255 :=
  rfl

theorem normTol_of_le_one {t : ℚ} (h : t ≤ 1) : normalizeTolerance (some t) = t := by
  simp only [normalizeTolerance]
  rw [if_neg (by linarith)]

theorem whiteThreshold_zero : whiteThreshold (some 0) = 0 := by
  have h : (255 : ℚ) * normalizeTolerance (some 0) = ((0 : ℤ) : ℚ) := by
    rw [normTol_of_le_one (by norm_num)]
    norm_num
  rw [whiteThreshold, h, pyRound_intCast]

theorem whiteThreshold_one : whiteThreshold (some 1) = 255 := by
  have h : (255 : ℚ) * normalizeTolerance (some 1) = ((255 : ℤ) : ℚ) := by
    rw [normTol_of_le_one (by norm_num)]
    norm_num
  rw [whiteThreshold, h, pyRound_intCast]

theorem normTol_255 : normalizeTolerance (some 255) = 1 := by
  simp only [normalizeTolerance]
  rw [if_pos (by norm_num)]
  norm_num

theorem whiteThreshold_255 : whiteThreshold (some 255) = 255 := by
  have h : (255 : ℚ) * normalizeTolerance (some 255) = ((255 : ℤ) : ℚ) := by
    rw [normTol_255]
    norm_num
  rw [whiteThreshold, h, pyRound_intCast]

theorem normTol_128 : normalizeTolerance (some 128) = 128 / 255 := by
  simp only [normalizeTolerance]
  rw [if_pos (by norm_num)]
  rw [min_eq_right (by norm_num), max_eq_right (by norm_num)]

theorem whiteThreshold_128 : whiteThreshold (some 128) = 128 := by
  have h : (255 : ℚ) * normalizeTolerance (some 128) = ((128 : ℤ) : ℚ) := by
    rw [normTol_128]
    norm_num
  rw [whiteThreshold, h, pyRound_intCast]

/-- C1: for every cropped pixel (r, g, b) and every normalized tolerance
tol, the mask entry before smoothing is 0 iff r, g and b all reach
threshold = round(255 * tol), and is 255 otherwise; with tol = 1 exactly
the pure white pixels get mask 0, with tol = 0 every pixel gets mask 0. -/
theorem C1_mask_threshold (r g b a : ℕ) (tol : ℚ)
    (h0 : 0 ≤ tol) (h1 : tol ≤ 1) (hr : r ≤ 255) (hg : g ≤ 255) (hb : b ≤ 255) :
    (maskPixel (whiteThreshold (some tol)) (r, g, b, a) = 0 ↔
      (pyRound (255 * tol) ≤ (r : ℤ) ∧ pyRound (255 * tol) ≤ (g : ℤ) ∧
        pyRound (255 * tol) ≤ (b : ℤ))) ∧
    (¬ (pyRound (255 * tol) ≤ (r : ℤ) ∧ pyRound (255 * tol) ≤ (g : ℤ) ∧
        pyRound (255 * tol) ≤ (b : ℤ)) →
      maskPixel (whiteThreshold (some tol)) (r, g, b, a) = 255) ∧
    (maskPixel (whiteThreshold (some 1)) (r, g, b, a) = 0 ↔
      (r = 255 ∧ g = 255 ∧ b = 255)) ∧
    maskPixel (whiteThreshold (some 0)) (r, g, b, a) = 0 := by
  have hw : whiteThreshold (some tol) = pyRound (255 * tol) := by
    rw [whiteThreshold, normTol_of_le_one h1]
  refine ⟨?_, ?_, ?_, ?_⟩
  · rw [hw, maskPixel_mk]
    split_ifs with hc <;> simp [hc]
  · intro hnc
    rw [hw, maskPixel_mk]
    rw [if_neg hnc]
  · rw [whiteThreshold_one, maskPixel_mk]
    split_ifs with hc
    · obtain ⟨hc1, hc2, hc3⟩ := hc
      omega
    · constructor
      · intro h
        simp at h
      · intro h
        obtain ⟨e1, e2, e3⟩ := h
        exact absurd ⟨by omega, by omega, by omega⟩ hc
  · rw [whiteThreshold_zero, maskPixel_mk]
    rw [if_pos ⟨Int.natCast_nonneg r, Int.natCast_nonneg g, Int.natCast_nonneg b⟩]

theorem C1_witness :
    (0 : ℚ) ≤ 1/2 ∧ (1/2 : ℚ) ≤ 1 ∧ (255 : ℕ) ≤ 255 ∧ (255 : ℕ) ≤ 255 ∧
    (254 : ℕ) ≤ 255 ∧
    ((maskPixel (whiteThreshold (some (1/2))) (255, 255, 254, 0) = 0 ↔
      (pyRound (255 * (1/2)) ≤ ((255 : ℕ) : ℤ) ∧ pyRound (255 * (1/2)) ≤ ((255 : ℕ) : ℤ) ∧
        pyRound (255 * (1/2)) ≤ ((254 : ℕ) : ℤ))) ∧
    (¬ (pyRound (255 * (1/2)) ≤ ((255 : ℕ) : ℤ) ∧ pyRound (255 * (1/2)) ≤ ((255 : ℕ) : ℤ) ∧
        pyRound (255 * (1/2)) ≤ ((254 : ℕ) : ℤ)) →
      maskPixel (whiteThreshold (some (1/2))) (255, 255, 254, 0) = 255) ∧
    (maskPixel (whiteThreshold (some 1)) (255, 255, 254, 0) = 0 ↔
      ((255 : ℕ) = 255 ∧ (255 : ℕ) = 255 ∧ (254 : ℕ) = 255)) ∧
    maskPixel (whiteThreshold (some 0)) (255, 255, 254, 0) = 0) :=
  ⟨by norm_num, by norm_num, by norm_num, by norm_num, by norm_num,
   C1_mask_threshold 255 255 254 0 (1/2) (by norm_num) (by norm_num)
     (by norm_num) (by norm_num) (by norm_num)⟩

/-- C2: for every input of width at least 1, height at least 1 and
positive size, the cropped image has dimensions exactly size by size,
whatever the aspect ratio: the crop box handed to img.crop is always
size wide and size tall. -/
theorem C2_output_dimensions (w h size : ℕ) (hw : 1 ≤ w) (hh : 1 ≤ h) (hs : 1 ≤ size) :
    croppedDims w h size = ((size : ℤ), (size : ℤ)) := by
  simp [croppedDims, cropRight, cropBottom]

theorem C2_witness :
    1 ≤ 3 ∧ 1 ≤ 5 ∧ 1 ≤ 340 ∧ croppedDims 3 5 340 = ((340 : ℤ), (340 : ℤ)) :=
  ⟨by norm_num, by norm_num, by norm_num,
   C2_output_dimensions 3 5 340 (by norm_num) (by norm_num) (by norm_num)⟩

/-- C3: tolerance normalization treats a parse failure as 0.0, divides a
parsed value above 1.0 by 255 and clamps it to the unit interval; in
particular tolerance 255 normalizes to 1.0 with threshold 255 and
tolerance 128 normalizes to 128/255, about 0.502, with threshold 128. -/
theorem C3_tolerance_normalization (t : ℚ) (ht : 1 < t) :
    normalizeTolerance none = 0 ∧
    normalizeTolerance (some t) = max 0 (min 1 (t / 255)) ∧
    normalizeTolerance (some 255) = 1 ∧
    whiteThreshold (some 255) = 255 ∧
    normalizeTolerance (some 128) = 128 / 255 ∧
    whiteThreshold (some 128) = 128 ∧
    |normalizeTolerance (some 128) - 502/1000| < 1/1000 := by
  refine ⟨rfl, ?_, normTol_255, whiteThreshold_255, normTol_128, whiteThreshold_128, ?_⟩
  · simp only [normalizeTolerance]
    rw [if_pos ht]
  · rw [normTol_128, abs_lt]
    norm_num

theorem C3_witness :
    (1 : ℚ) < 2 ∧
    (normalizeTolerance none = 0 ∧
    normalizeTolerance (some 2) = max 0 (min 1 (2 / 255)) ∧
    normalizeTolerance (some 255) = 1 ∧
    whiteThreshold (some 255) = 255 ∧
    normalizeTolerance (some 128) = 128 / 255 ∧
    whiteThreshold (some 128) = 128 ∧
    |normalizeTolerance (some 128) - 502/1000| < 1/1000) :=
  ⟨by norm_num, C3_tolerance_normalization 2 (by norm_num)⟩

/-- C4 fails as stated: the legacy reinterpretation of values above 1.0
breaks monotonicity at the boundary.  Tolerances 1 and 2 satisfy 1 ≤ 2,
yet the threshold for 1 is 255 while the threshold for 2 is only 2, and
the pixel (100, 100, 100) is classified white under tolerance 2 but not
under tolerance 1. -/
theorem C4_counterexample :
    (1 : ℚ) ≤ 2 ∧
    whiteThreshold (some 2) < whiteThreshold (some 1) ∧
    maskPixel (whiteThreshold (some 2)) (100, 100, 100, 255) = 0 ∧
    maskPixel (whiteThreshold (some 1)) (100, 100, 100, 255) = 255 := by
  have h2 : whiteThreshold (some 2) = 2 := by
    have h : (255 : ℚ) * normalizeTolerance (some 2) = ((2 : ℤ) : ℚ) := by
      simp only [normalizeTolerance]
      rw [if_pos (by norm_num : (1:ℚ) < 2)]
      rw [min_eq_right (by norm_num), max_eq_right (by norm_num)]
      norm_num
    rw [whiteThreshold, h, pyRound_intCast]
  refine ⟨by norm_num, ?_, ?_, ?_⟩
  · rw [h2, whiteThreshold_one]
    norm_num
  · rw [h2, maskPixel_mk]
    rw [if_pos (by norm_num)]
  · rw [whiteThreshold_one, maskPixel_mk]
    rw [if_neg (by norm_num)]

/-- C4 amended: the whiteness threshold is monotone in the tolerance as
long as both supplied values lie on the same side of the legacy boundary
(both at most 1.0, or both above 1.0); then every pixel classified white
under the larger tolerance is classified white under the smaller one. -/
theorem C4_threshold_monotone (t1 t2 : ℚ) (h12 : t1 ≤ t2) (hside : t2 ≤ 1 ∨ 1 < t1) :
    whiteThreshold (some t1) ≤ whiteThreshold (some t2) ∧
    ∀ p : Pixel, maskPixel (whiteThreshold (some t2)) p = 0 →
      maskPixel (whiteThreshold (some t1)) p = 0 := by
  have hn : normalizeTolerance (some t1) ≤ normalizeTolerance (some t2) := by
    rcases hside with hs | hs
    · rw [normTol_of_le_one (le_trans h12 hs), normTol_of_le_one hs]
      exact h12
    · have h2 : 1 < t2 := lt_of_lt_of_le hs h12
      simp only [normalizeTolerance]
      rw [if_pos hs, if_pos h2]
      exact max_le_max (le_refl 0) (min_le_min (le_refl 1) (by linarith))
  have hth : whiteThreshold (some t1) ≤ whiteThreshold (some t2) := by
    unfold whiteThreshold
    exact pyRound_mono (by linarith)
  refine ⟨hth, ?_⟩
  intro p hp
  unfold maskPixel at hp ⊢
  split_ifs at hp with hc
  obtain ⟨ha, hb, hcc⟩ := hc
  rw [if_pos ⟨le_trans hth ha, le_trans hth hb, le_trans hth hcc⟩]

theorem C4_witness :
    (1/4 : ℚ) ≤ 1/2 ∧ ((1/2 : ℚ) ≤ 1 ∨ (1 : ℚ) < 1/4) ∧
    (whiteThreshold (some (1/4)) ≤ whiteThreshold (some (1/2)) ∧
    ∀ p : Pixel, maskPixel (whiteThreshold (some (1/2))) p = 0 →
      maskPixel (whiteThreshold (some (1/4))) p = 0) :=
  ⟨by norm_num, Or.inl (by norm_num),
   C4_threshold_monotone (1/4) (1/2) (by norm_num) (Or.inl (by norm_num))⟩

theorem mem_recombine {datas : List Pixel} {m : List ℕ} {p : Pixel}
    (hp : p ∈ recombine datas m) :
    ∃ q ∈ datas, ∃ mv ∈ m, p = (q.1, q.2.1, q.2.2.1, mv) := by
  unfold recombine at hp
  obtain ⟨⟨q, mv⟩, hpm, rfl⟩ := List.mem_map.1 hp
  obtain ⟨h1, h2⟩ := List.of_mem_zip hpm
  exact ⟨q, h1, mv, h2, rfl⟩

theorem mem_buildMask {threshold : ℤ} {datas : List Pixel} {m : ℕ}
    (hm : m ∈ buildMask threshold datas) : m = 0 ∨ m = 255 := by
  unfold buildMask at hm
  obtain ⟨q, hq, rfl⟩ := List.mem_map.1 hm
  unfold maskPixel
  split_ifs <;> simp

/-- C5: when the smoothing parameter normalizes to 0 the blur is skipped
and every alpha value of the output is exactly 0 or exactly 255; the
Gaussian blur radius is the clamped smoothing value times 5, monotone
non-decreasing in the smoothing value. -/
theorem C5_smoothing_binary_alpha (datas : List Pixel) (tol sm : Option ℚ)
    (blur : List ℕ → ℚ → List ℕ) (hs : normalizeSmoothing sm = 0)
    (s1 s2 : ℚ) (h12 : s1 ≤ s2) :
    (∀ p ∈ processCore datas tol sm blur, p.2.2.2 = 0 ∨ p.2.2.2 = 255) ∧
    blurRadius (some s1) = max 0 (min 1 s1) * 5 ∧
    blurRadius (some s1) ≤ blurRadius (some s2) := by
  refine ⟨?_, rfl, ?_⟩
  · intro p hp
    unfold processCore at hp
    rw [hs, if_neg (lt_irrefl 0)] at hp
    obtain ⟨q, hq, mv, hmv, rfl⟩ := mem_recombine hp
    exact mem_buildMask hmv
  · unfold blurRadius
    have h : normalizeSmoothing (some s1) ≤ normalizeSmoothing (some s2) := by
      simp only [normalizeSmoothing]
      exact max_le_max (le_refl 0) (min_le_min (le_refl 1) h12)
    linarith

theorem C5_witness :
    normalizeSmoothing (some 0) = 0 ∧ (0 : ℚ) ≤ 1 ∧
    ((∀ p ∈ processCore [((1 : ℕ), (2 : ℕ), (3 : ℕ), (4 : ℕ))] none (some 0)
        (fun m _ => m), p.2.2.2 = 0 ∨ p.2.2.2 = 255) ∧
    blurRadius (some 0) = max 0 (min 1 0) * 5 ∧
    blurRadius (some 0) ≤ blurRadius (some 1)) :=
  ⟨by norm_num [normalizeSmoothing], by norm_num,
   C5_smoothing_binary_alpha [((1 : ℕ), (2 : ℕ), (3 : ℕ), (4 : ℕ))] none (some 0)
     (fun m _ => m) (by norm_num [normalizeSmoothing]) 0 1 (by norm_num)⟩

theorem newDim_eq_of_min (m size : ℕ) (hm : 1 ≤ m) (hs : 1 ≤ size) :
    max 1 (pyRound ((m : ℚ) * ((size : ℚ) / (m : ℚ)))) = (size : ℤ) := by
  have hm0 : ((m : ℕ) : ℚ) ≠ 0 := Nat.cast_ne_zero.mpr (by omega)
  rw [mul_comm, div_mul_cancel₀ _ hm0, pyRound_natCast]
  omega

theorem newDim_ge_of_other (m d size : ℕ) (hm : 1 ≤ m) (hmd : m ≤ d) (hs : 1 ≤ size) :
    (size : ℤ) ≤ max 1 (pyRound ((d : ℚ) * ((size : ℚ) / (m : ℚ)))) := by
  have hm0 : ((m : ℕ) : ℚ) ≠ 0 := Nat.cast_ne_zero.mpr (by omega)
  have hle : (m : ℚ) * ((size : ℚ) / (m : ℚ)) ≤ (d : ℚ) * ((size : ℚ) / (m : ℚ)) := by
    apply mul_le_mul_of_nonneg_right
    · exact_mod_cast hmd
    · positivity
  have h1 := pyRound_mono hle
  rw [mul_comm ((m : ℚ)) _, div_mul_cancel₀ _ hm0, pyRound_natCast] at h1
  omega

theorem newDims_min (w h size : ℕ) (hw : 1 ≤ w) (hh : 1 ≤ h) (hs : 1 ≤ size) :
    min (newW w h size) (newH w h size) = (size : ℤ) := by
  rcases le_total w h with hwh | hwh
  · have hmin : min w h = w := min_eq_left hwh
    unfold newW newH scaleOf
    rw [hmin, newDim_eq_of_min w size hw hs]
    exact min_eq_left (newDim_ge_of_other w h size hw hwh hs)
  · have hmin : min w h = h := min_eq_right hwh
    unfold newW newH scaleOf
    rw [hmin, newDim_eq_of_min h size hh hs]
    exact min_eq_right (newDim_ge_of_other h w size hh hwh hs)

theorem newW_400_200_340 : newW 400 200 340 = 680 := by
  have h : ((400 : ℕ) : ℚ) * scaleOf 400 200 340 = ((680 : ℤ) : ℚ) := by
    unfold scaleOf
    rw [min_eq_right (by norm_num : (200 : ℕ) ≤ 400)]
    push_cast
    norm_num
  unfold newW
  rw [h, pyRound_intCast]
  decide

theorem newH_400_200_340 : newH 400 200 340 = 340 := by
  have h : ((200 : ℕ) : ℚ) * scaleOf 400 200 340 = ((340 : ℤ) : ℚ) := by
    unfold scaleOf
    rw [min_eq_right (by norm_num : (200 : ℕ) ≤ 400)]
    push_cast
    norm_num
  unfold newH
  rw [h, pyRound_intCast]
  decide

theorem cropLeft_400_200_340 : cropLeft 400 200 340 = 170 := by
  unfold cropLeft
  rw [newW_400_200_340]
  decide

theorem cropTop_400_200_340 : cropTop 400 200 340 = 0 := by
  unfold cropTop
  rw [newH_400_200_340]
  decide

/-- C6: the resize computes scale = size / min(w, h) and rounds each
dimension, flooring at 1; afterwards the smaller dimension equals size
exactly; concretely a 400 by 200 input at size 340 resizes to 680 by 340
and the center crop starts at left 170, top 0. -/
theorem C6_resize_geometry (w h size : ℕ) (hw : 1 ≤ w) (hh : 1 ≤ h) (hs : 1 ≤ size) :
    min (newW w h size) (newH w h size) = (size : ℤ) ∧
    newW 400 200 340 = 680 ∧ newH 400 200 340 = 340 ∧
    cropLeft 400 200 340 = 170 ∧ cropTop 400 200 340 = 0 :=
  ⟨newDims_min w h size hw hh hs, newW_400_200_340, newH_400_200_340,
   cropLeft_400_200_340, cropTop_400_200_340⟩

theorem C6_witness :
    1 ≤ 7 ∧ 1 ≤ 3 ∧ 1 ≤ 11 ∧
    (min (newW 7 3 11) (newH 7 3 11) = ((11 : ℕ) : ℤ) ∧
     newW 400 200 340 = 680 ∧ newH 400 200 340 = 340 ∧
     cropLeft 400 200 340 = 170 ∧ cropTop 400 200 340 = 0) :=
  ⟨by norm_num, by norm_num, by norm_num,
   C6_resize_geometry 7 3 11 (by norm_num) (by norm_num) (by norm_num)⟩

/-- C7: the pipeline is deterministic: the pixel transform, the crop
geometry and the batch report are functions of their inputs, so two runs
with identical parameters on the same source produce identical output. -/
theorem C7_deterministic :
    ∀ (datas : List Pixel) (tol sm : Option ℚ) (blur : List ℕ → ℚ → List ℕ)
      (files : List (String × String × Except String Unit)) (w h size : ℕ),
    processCore datas tol sm blur = processCore datas tol sm blur ∧
    croppedDims w h size = croppedDims w h size ∧
    runBatch files = runBatch files := by
  intro _ _ _ _ _ _ _ _
  exact ⟨rfl, rfl, rfl⟩

/-- C8: the batch loop prints exactly one line per file whatever the
per-file outcomes, the exit code is 0 whenever the input directory
exists and 1 otherwise, and the batch of two valid PNGs and one corrupt
file yields two success lines and one failure line. -/
theorem C8_batch_error_isolation :
    (∀ files : List (String × String × Except String Unit),
      (runBatch files).length = files.length) ∧
    mainExitCode true = 0 ∧
    mainExitCode false = 1 ∧
    runBatch exampleBatch =
      ["Processed: a.png -> out/a.png",
       "Processed: b.png -> out/b.png",
       "Failed to process c.png: cannot identify image file"] := by
  refine ⟨?_, rfl, rfl, rfl⟩
  intro files
  unfold runBatch
  exact List.length_map files _

theorem recombine_rgb (d1 : List Pixel) : ∀ (d2 : List Pixel) (m : List ℕ),
    d1.map rgbOf = d2.map rgbOf → recombine d1 m = recombine d2 m := by
  induction d1 with
  | nil =>
    intro d2 m h
    cases d2 with
    | nil => rfl
    | cons b t2 => simp at h
  | cons a t ih =>
    intro d2 m h
    cases d2 with
    | nil => simp at h
    | cons b t2 =>
      simp only [List.map_cons, List.cons.injEq] at h
      obtain ⟨h1, h2⟩ := h
      cases m with
      | nil => rfl
      | cons mv mt =>
        unfold recombine
        simp only [List.zip_cons_cons, List.map_cons]
        have e : (a.1, a.2.1, a.2.2.1) = (b.1, b.2.1, b.2.2.1) := h1
        have etail := ih t2 mt h2
        unfold recombine at etail
        rw [etail]
        simp only [Prod.mk.injEq] at e
        obtain ⟨e1, e2, e3⟩ := e
        rw [e1, e2, e3]

theorem buildMask_rgb (threshold : ℤ) (d1 d2 : List Pixel)
    (h : d1.map rgbOf = d2.map rgbOf) :
    buildMask threshold d1 = buildMask threshold d2 := by
  have key : ∀ d : List Pixel, buildMask threshold d =
      (d.map rgbOf).map
        (fun t => if threshold ≤ (t.1 : ℤ) ∧ threshold ≤ (t.2.1 : ℤ) ∧
          threshold ≤ (t.2.2 : ℤ) then 0 else 255) := by
    intro d
    unfold buildMask
    rw [List.map_map]
    rfl
  rw [key d1, key d2, h]

/-- C9: the output of the pixel pipeline does not depend on the alpha
channel of the source: two pixel lists that agree on all r, g, b values
produce identical output whatever their alpha values, because the source
alpha is read but never used. -/
theorem C9_alpha_independence (d1 d2 : List Pixel) (tol sm : Option ℚ)
    (blur : List ℕ → ℚ → List ℕ) (h : d1.map rgbOf = d2.map rgbOf) :
    processCore d1 tol sm blur = processCore d2 tol sm blur := by
  unfold processCore
  rw [buildMask_rgb (whiteThreshold tol) d1 d2 h]
  split_ifs with hc
  · exact recombine_rgb d1 _ _ h
  · exact recombine_rgb d1 _ _ h

theorem C9_witness :
    ([((255 : ℕ), (0 : ℕ), (0 : ℕ), (7 : ℕ))].map rgbOf =
      [((255 : ℕ), (0 : ℕ), (0 : ℕ), (200 : ℕ))].map rgbOf) ∧
    processCore [((255 : ℕ), (0 : ℕ), (0 : ℕ), (7 : ℕ))] (some 1) (some 0)
        (fun m _ => m) =
      processCore [((255 : ℕ), (0 : ℕ), (0 : ℕ), (200 : ℕ))] (some 1) (some 0)
        (fun m _ => m) :=
  ⟨rfl, C9_alpha_independence [((255 : ℕ), (0 : ℕ), (0 : ℕ), (7 : ℕ))]
    [((255 : ℕ), (0 : ℕ), (0 : ℕ), (200 : ℕ))] (some 1) (some 0) (fun m _ => m) rfl⟩

/-- C10: a tolerance that parses to a value at most 0 is not clamped:
the threshold it yields is at most 0, every pixel is classified white,
with smoothing normalizing to 0 the whole output is transparent, and the
result coincides with the result for tolerance 0. -/
theorem C10_negative_tolerance (t : ℚ) (ht : t ≤ 0) (datas : List Pixel)
    (sm : Option ℚ) (blur : List ℕ → ℚ → List ℕ)
    (hs : normalizeSmoothing sm = 0) :
    whiteThreshold (some t) ≤ 0 ∧
    (∀ p : Pixel, maskPixel (whiteThreshold (some t)) p = 0) ∧
    (∀ p ∈ processCore datas (some t) sm blur, p.2.2.2 = 0) ∧
    processCore datas (some t) sm blur = processCore datas (some 0) sm blur := by
  have hθ : whiteThreshold (some t) ≤ 0 := by
    rw [whiteThreshold, normTol_of_le_one (by linarith)]
    refine pyRound_nonpos ?_
    have h255 : (255 : ℚ) * t ≤ 255 * 0 :=
      mul_le_mul_of_nonneg_left ht (by norm_num)
    linarith
  have hmask : ∀ (θ : ℤ), θ ≤ 0 → ∀ p : Pixel, maskPixel θ p = 0 := by
    intro θ hθ0 p
    unfold maskPixel
    rw [if_pos ⟨le_trans hθ0 (Int.natCast_nonneg _), le_trans hθ0 (Int.natCast_nonneg _),
      le_trans hθ0 (Int.natCast_nonneg _)⟩]
  have hmaskEq : buildMask (whiteThreshold (some t)) datas =
      buildMask (whiteThreshold (some 0)) datas := by
    unfold buildMask
    refine List.map_congr_left ?_
    intro p _
    rw [hmask _ hθ p, hmask _ (le_of_eq whiteThreshold_zero) p]
  refine ⟨hθ, hmask _ hθ, ?_, ?_⟩
  · intro p hp
    unfold processCore at hp
    rw [hs, if_neg (lt_irrefl 0)] at hp
    obtain ⟨q, hq, mv, hmv, rfl⟩ := mem_recombine hp
    unfold buildMask at hmv
    obtain ⟨q2, hq2, rfl⟩ := List.mem_map.1 hmv
    exact hmask _ hθ q2
  · unfold processCore
    rw [hmaskEq]

theorem C10_witness :
    (-5 : ℚ) ≤ 0 ∧ normalizeSmoothing none = 0 ∧
    (whiteThreshold (some (-5)) ≤ 0 ∧
    (∀ p : Pixel, maskPixel (whiteThreshold (some (-5))) p = 0) ∧
    (∀ p ∈ processCore [((10 : ℕ), (20 : ℕ), (30 : ℕ), (40 : ℕ))] (some (-5)) none
        (fun m _ => m), p.2.2.2 = 0) ∧
    processCore [((10 : ℕ), (20 : ℕ), (30 : ℕ), (40 : ℕ))] (some (-5)) none
        (fun m _ => m) =
      processCore [((10 : ℕ), (20 : ℕ), (30 : ℕ), (40 : ℕ))] (some 0) none
        (fun m _ => m)) :=
  ⟨by norm_num, rfl,
   C10_negative_tolerance (-5) (by norm_num) [((10 : ℕ), (20 : ℕ), (30 : ℕ), (40 : ℕ))]
     none (fun m _ => m) rfl⟩
